import Mathlib

/-!
Verification of the blurest repository's placeholder pipeline.

Shallow embedding of `src/blurest-wc/src/blurhash.ts` (base83 codec,
`BlurhashDecoder`, `BlurhashCssConverter`, `BlurhashUtils`) and of the
`AxBlurest` custom element (`src/unnamed/part_002`).

Modelling conventions:
  * JavaScript `number` arithmetic on colour data is modelled over `ℝ`
    (IEEE rounding is not modelled); integer-valued quantities are `ℕ`/`ℤ`,
    and exact fraction computations (percentage rounding, aspect ratios)
    are modelled over `ℚ`.
  * Thrown exceptions are modelled with `Except String`; the carried string
    is the thrown message.
  * A `Uint8Array` raster is a `List ℕ` in the same flat layout.
  * The element's DOM is abstracted to the fields the handlers read or
    write (layer presence, CSS classes, `data-src`); side effects
    (fetch starts, dispatched events, timer and observer management) are
    recorded in an effect trace.
-/

namespace Blurest

/-- The base83 alphabet of `BlurhashDecoder.BASE83_CHARS` (blurhash.ts lines 79-163). -/
def BASE83_CHARS : List Char :=
  ['0', '1', '2', '3', '4', '5', '6', '7', '8', '9', 'A', 'B', 'C', 'D', 'E', 'F', 'G',
   'H', 'I', 'J', 'K', 'L', 'M', 'N', 'O', 'P', 'Q', 'R', 'S', 'T', 'U', 'V', 'W', 'X',
   'Y', 'Z', 'a', 'b', 'c', 'd', 'e', 'f', 'g', 'h', 'i', 'j', 'k', 'l', 'm', 'n', 'o',
   'p', 'q', 'r', 's', 't', 'u', 'v', 'w', 'x', 'y', 'z', '#', '$', '%', '*', '+', ',',
   '-', '.', ':', ';', '=', '?', '@', '[', ']', '^', '_', '{', '|', '}', '~']

/-- `BASE83_CHARS.indexOf(c)`, as an `Option` (`none` for the JS `-1`). -/
def base83Digit (c : Char) : Option ℕ :=
  BASE83_CHARS.findIdx? (fun d => d = c)

/-- The accumulator loop of `BlurhashDecoder.decode83` (lines 170-181):
`value = value * 83 + digit`, throwing at the first character outside the
alphabet. -/
def decode83Go (acc : ℕ) : List Char → Except String ℕ
  | [] => .ok acc
  | c :: rest =>
    match base83Digit c with
    | none => .error ("Invalid base83 character: " ++ c.toString)
    | some digit => decode83Go (acc * 83 + digit) rest

/-- `BlurhashDecoder.decode83` on a list of characters. -/
def decode83 (str : List Char) : Except String ℕ :=
  decode83Go 0 str

/-- `numY = Math.floor(sizeFlag / 9) + 1` (line 241). -/
def numYOf (sizeFlag : ℕ) : ℕ := sizeFlag / 9 + 1

/-- `numX = (sizeFlag % 9) + 1` (line 242). -/
def numXOf (sizeFlag : ℕ) : ℕ := sizeFlag % 9 + 1

/-- The message thrown by the length check of `validateBlurhash` (line 246). -/
def lengthMismatchMessage (actual expected : ℕ) : String :=
  "blurhash length mismatch: length is " ++ toString actual ++
    " but it should be " ++ toString expected

/-- `BlurhashDecoder.validateBlurhash` (lines 235-249): length at least 6,
then the first character's base83 value fixes `numX`, `numY` and the exact
required length `4 + 2 * numX * numY`. -/
def validateBlurhash (blurhash : String) : Except String Unit :=
  if blurhash.length < 6 then
    .error "The blurhash string must be at least 6 characters"
  else
    match decode83 (blurhash.data.take 1) with
    | .error e => .error e
    | .ok sizeFlag =>
      if blurhash.length = 4 + 2 * numXOf sizeFlag * numYOf sizeFlag then .ok ()
      else .error (lengthMismatchMessage blurhash.length
        (4 + 2 * numXOf sizeFlag * numYOf sizeFlag))

/-- The result object of `BlurhashDecoder.isBlurhashValid` (lines 353-363). -/
structure ValidityResult where
  result : Bool
  errorReason : Option String
deriving DecidableEq

/-- `BlurhashDecoder.isBlurhashValid`: run `validateBlurhash`, catching the
thrown message as `errorReason`. -/
def isBlurhashValid (blurhash : String) : ValidityResult :=
  match validateBlurhash blurhash with
  | .ok _ => ⟨true, none⟩
  | .error e => ⟨false, some e⟩

/-- `BlurhashUtils.isValidBlurhash` (lines 732-735). -/
def isValidBlurhash (hash : String) : Bool :=
  (isBlurhashValid hash).result

/-- `BlurhashDecoder.sRGBToLinear` (lines 188-195), on a byte-valued input. -/
noncomputable def sRGBToLinear (value : ℕ) : ℝ :=
  let v : ℝ := (value : ℝ) / 255
  if v ≤ 0.04045 then v / 12.92 else ((v + 0.055) / 1.055) ^ (2.4 : ℝ)

/-- `BlurhashDecoder.linearTosRGB` (lines 202-209): clamp to [0,1], gamma
encode, and truncate `… * 255 + 0.5` (the truncated value is nonnegative, so
`Math.trunc` is the floor). -/
noncomputable def linearTosRGB (value : ℝ) : ℕ :=
  let v := max 0 (min 1 value)
  if v ≤ 0.0031308 then (⌊v * 12.92 * 255 + 0.5⌋).toNat
  else (⌊(1.055 * v ^ ((1 : ℝ) / 2.4) - 0.055) * 255 + 0.5⌋).toNat

/-- `BlurhashDecoder.sign` (lines 216-218). -/
noncomputable def signJS (n : ℝ) : ℝ := if n < 0 then -1 else 1

/-- `BlurhashDecoder.signPow` (lines 226-228). -/
noncomputable def signPow (val exp : ℝ) : ℝ := signJS val * |val| ^ exp

/-- `BlurhashDecoder.decodeDC` (lines 256-261): split a 24-bit value into
R, G, B bytes (`>> 16`, `>> 8 & 255`, `& 255`) and linearise each. -/
noncomputable def decodeDC (value : ℕ) : ℝ × ℝ × ℝ :=
  (sRGBToLinear (value / 65536), sRGBToLinear (value / 256 % 256),
   sRGBToLinear (value % 256))

/-- `BlurhashDecoder.decodeAC` (lines 269-279): split the value in base 19
and apply the sign-preserving square scaled by `maximumValue`. -/
noncomputable def decodeAC (value : ℕ) (maximumValue : ℝ) : ℝ × ℝ × ℝ :=
  (signPow ((((value / 361 : ℕ) : ℝ) - 9) / 9) 2 * maximumValue,
   signPow ((((value / 19 % 19 : ℕ) : ℝ) - 9) / 9) 2 * maximumValue,
   signPow ((((value % 19 : ℕ) : ℝ) - 9) / 9) 2 * maximumValue)

/-- `maximumValue = (quantisedMaximumValue + 1) / 166` (line 300). -/
noncomputable def maximumValueOf (quantisedMaximumValue : ℕ) : ℝ :=
  ((quantisedMaximumValue : ℝ) + 1) / 166

/-- One iteration of the colour loop of `decode` (lines 304-312): component 0
decodes the 4 DC characters at offset 2, component `i > 0` decodes the 2 AC
characters at offset `4 + 2 * i` (JS `substring(a, b)` is `drop a |>.take (b - a)`). -/
noncomputable def colorAt (chars : List Char) (maxTimesPunch : ℝ) (i : ℕ) :
    Except String (ℝ × ℝ × ℝ) :=
  if i = 0 then
    match decode83 ((chars.drop 2).take 4) with
    | .error e => .error e
    | .ok value => .ok (decodeDC value)
  else
    match decode83 ((chars.drop (4 + i * 2)).take 2) with
    | .error e => .error e
    | .ok value => .ok (decodeAC value maxTimesPunch)

/-- A sequential loop pushing `f x` results and aborting at the first thrown
error, as the source loops do over arrays. -/
def exceptMapList {α β : Type} (f : α → Except String β) : List α → Except String (List β)
  | [] => .ok []
  | x :: xs =>
    match f x with
    | .error e => .error e
    | .ok y =>
      match exceptMapList f xs with
      | .error e => .error e
      | .ok ys => .ok (y :: ys)

/-- A loop for `k = 0 … n-1` appending the block `f k`, as the pixel loops
push bytes row by row. -/
def appendMapRange {α : Type} (f : ℕ → List α) : ℕ → List α
  | 0 => []
  | n + 1 => appendMapRange f n ++ f n

/-- The linear-light value of one channel of pixel `(x, y)` (lines 317-332):
`Σ_j Σ_i color[i + j * numX] * cos(π x i / width) * cos(π y j / height)`.
The colour list always has length `numX * numY` at call sites, so the
out-of-range default is never read. -/
noncomputable def pixelLinear (colors : List (ℝ × ℝ × ℝ)) (numX numY width height x y : ℕ)
    (proj : ℝ × ℝ × ℝ → ℝ) : ℝ :=
  ∑ j ∈ Finset.range numY, ∑ i ∈ Finset.range numX,
    proj (colors.getD (i + j * numX) (0, 0, 0)) *
      (Real.cos (Real.pi * x * i / width) * Real.cos (Real.pi * y * j / height))

/-- The four bytes the decoder stores for pixel `(x, y)` (lines 334-341):
gamma-encoded R, G, B and the constant alpha 255. -/
noncomputable def pixelBytes (colors : List (ℝ × ℝ × ℝ)) (numX numY width height x y : ℕ) :
    List ℕ :=
  [linearTosRGB (pixelLinear colors numX numY width height x y Prod.fst),
   linearTosRGB (pixelLinear colors numX numY width height x y (fun c => c.2.1)),
   linearTosRGB (pixelLinear colors numX numY width height x y (fun c => c.2.2)),
   255]

/-- The flat RGBA buffer (lines 314-343): row-major, byte
`4 * x + c + y * width * 4` belongs to channel `c` of pixel `(x, y)`. -/
noncomputable def rasterBytes (colors : List (ℝ × ℝ × ℝ)) (numX numY width height : ℕ) :
    List ℕ :=
  appendMapRange (fun y => appendMapRange (fun x => pixelBytes colors numX numY width height x y) width) height

/-- `BlurhashDecoder.decode` (lines 290-346). A falsy `punch` (0) is replaced
by 1 before use (line 293, `punch = punch || 1`). -/
noncomputable def decode (blurhash : String) (width height : ℕ) (punch : ℝ) :
    Except String (List ℕ) :=
  match validateBlurhash blurhash with
  | .error e => .error e
  | .ok _ =>
    let punchUsed : ℝ := if punch = 0 then 1 else punch
    match decode83 (blurhash.data.take 1) with
    | .error e => .error e
    | .ok sizeFlag =>
      match decode83 ((blurhash.data.drop 1).take 1) with
      | .error e => .error e
      | .ok quantisedMaximumValue =>
        match exceptMapList
            (colorAt blurhash.data (maximumValueOf quantisedMaximumValue * punchUsed))
            (List.range (numXOf sizeFlag * numYOf sizeFlag)) with
        | .error e => .error e
        | .ok colors =>
          .ok (rasterBytes colors (numXOf sizeFlag) (numYOf sizeFlag) width height)

instance exceptDecEq {ε α : Type} [DecidableEq ε] [DecidableEq α] :
    DecidableEq (Except ε α) := fun a b =>
  match a, b with
  | .error e, .error f =>
    if h : e = f then isTrue (by rw [h]) else isFalse (by simp [h])
  | .error _, .ok _ => isFalse (by simp)
  | .ok _, .error _ => isFalse (by simp)
  | .ok x, .ok y =>
    if h : x = y then isTrue (by rw [h]) else isFalse (by simp [h])

/-- A placeholder string as §3 of the spec defines it — symbols drawn from
the 83-character alphabet — that also satisfies the structural length
invariant checked by `validateBlurhash`. -/
def wellFormedHash (h : String) : Prop :=
  (∀ c ∈ h.data, (base83Digit c).isSome) ∧ validateBlurhash h = .ok ()

instance (h : String) : Decidable (wellFormedHash h) := by
  unfold wellFormedHash; infer_instance

/-- The CSS record returned by the converter (interface `BlurhashCss`,
lines 19-32). -/
structure BlurhashCss where
  backgroundImage : String
  backgroundPosition : String
  backgroundRepeat : String
  backgroundSize : String
  filter : String
  transform : String
deriving DecidableEq

/-- The option record (interface `BlurhashOptions`, lines 49-60). Number
formatting of `blurRadius`/`scaleFactor` into CSS text uses Lean's `toString`
in place of JS number printing; no claim depends on those fields. -/
structure BlurhashOptions where
  width : ℤ
  height : ℤ
  blurRadius : ℚ := 24
  scaleFactor : ℚ := 1.2
  punch : ℝ := 1

/-- `BlurhashCssConverter.getRoundedPercentageOf` (lines 383-389):
`Math.round((part / whole) * 100)`, 0 when `whole` is 0. JS `Math.round`
rounds half-way cases up, exactly as Mathlib's `round`. -/
def getRoundedPercentageOf (part whole : ℕ) : ℤ :=
  if whole = 0 then 0 else round (((part : ℚ) / whole) * 100)

/-- `BlurhashCssConverter.getPixel` (lines 401-411): flat index
`4 * x + channelIndex + y * width * 4`, throwing when out of bounds. -/
def getPixel (pixelBytes : List ℕ) (x y width channelIndex : ℕ) : Except String ℕ :=
  let index := 4 * x + channelIndex + y * (width * 4)
  if pixelBytes.length ≤ index then
    .error ("Pixel index out of bounds: " ++ toString index)
  else .ok (pixelBytes.getD index 0)

/-- `BlurhashCssConverter.getRgbColor` (lines 422-428). -/
def getRgbColor (pixelBytes : List ℕ) (x y width : ℕ) : Except String (ℕ × ℕ × ℕ) :=
  match getPixel pixelBytes x y width 0 with
  | .error e => .error e
  | .ok r =>
    match getPixel pixelBytes x y width 1 with
    | .error e => .error e
    | .ok g =>
      match getPixel pixelBytes x y width 2 with
      | .error e => .error e
      | .ok b => .ok (r, g, b)

/-- One colour stop of the row gradients (lines 497-508): `rgb(r,g,b)` with
the start percentage omitted for `x = 0` and the end percentage omitted for
the last column. -/
def colorStop (pixelBytes : List ℕ) (width y x : ℕ) : Except String String :=
  match getRgbColor pixelBytes x y width with
  | .error e => .error e
  | .ok (r, g, b) =>
    let startPercent := if x = 0 then "" else
      " " ++ toString (getRoundedPercentageOf x width) ++ "%"
    let endPercent := if x = width - 1 then "" else
      " " ++ toString (getRoundedPercentageOf (x + 1) width) ++ "%"
    .ok ("rgb(" ++ toString r ++ "," ++ toString g ++ "," ++ toString b ++ ")"
      ++ startPercent ++ endPercent)

/-- The `linear-gradient(90deg, …)` built for row `y` (lines 493-512). -/
def rowGradient (pixelBytes : List ℕ) (width y : ℕ) : Except String String :=
  match exceptMapList (colorStop pixelBytes width y) (List.range width) with
  | .error e => .error e
  | .ok stops => .ok ("linear-gradient(90deg," ++ String.intercalate "," stops ++ ")")

/-- The `background-position` entry for row `y` (lines 514-520): `0 0` for the
first row, else `0 {round(100 * y / (height - 1))}%`. -/
def rowPosition (height y : ℕ) : String :=
  if y = 0 then "0 0"
  else "0 " ++ toString (getRoundedPercentageOf y (height - 1)) ++ "%"

/-- `BlurhashCssConverter.blurhashToBytes` (lines 439-445): `decode`, with the
thrown message wrapped in a generation context. -/
noncomputable def blurhashToBytes (hash : String) (width height : ℕ) (punch : ℝ) :
    Except String (List ℕ) :=
  match decode hash width height punch with
  | .error e => .error ("Failed to decode BlurHash: " ++ e)
  | .ok bytes => .ok bytes

/-- `BlurhashCssConverter.blurhashToCssStruct` (lines 471-531). -/
noncomputable def blurhashToCssStruct (hash : String) (options : BlurhashOptions) :
    Except String BlurhashCss :=
  if hash = "" then .error "Invalid BlurHash: must be a non-empty string"
  else if options.width ≤ 0 ∨ options.height ≤ 0 then
    .error "Width and height must be positive numbers"
  else
    let width := options.width.toNat
    let height := options.height.toNat
    match blurhashToBytes hash width height options.punch with
    | .error e => .error e
    | .ok pixelBytes =>
      match exceptMapList (rowGradient pixelBytes width) (List.range height) with
      | .error e => .error e
      | .ok linearGradients =>
        let backgroundPositions := (List.range height).map (rowPosition height)
        .ok { backgroundImage := String.intercalate "," linearGradients,
              backgroundPosition := String.intercalate "," backgroundPositions,
              backgroundRepeat := "no-repeat",
              backgroundSize := "100% " ++ toString ((100 : ℚ) / height) ++ "%",
              filter := "blur(" ++ toString options.blurRadius ++ "px)",
              transform := "scale(" ++ toString options.scaleFactor ++ ")" }

/-- `BlurhashCssConverter.blurhashToCssObject` (lines 674-676). -/
noncomputable def blurhashToCssObject (hash : String) (options : BlurhashOptions) :
    Except String BlurhashCss :=
  blurhashToCssStruct hash options

/-! The `AxBlurest` element (`src/unnamed/part_002`). -/

/-- The element's attribute surface. `debug` is a presence flag; the string
attributes are `none` when absent. -/
structure Attrs where
  src : Option String
  srcWidth : Option String
  srcHeight : Option String
  blurhash : Option String
  debug : Bool
  debugDelay : Option String
deriving DecidableEq

/-- JS string truthiness: absent and empty are falsy. -/
def truthy : Option String → Bool
  | none => false
  | some s => s ≠ ""

/-- `hasCompleteData = srcWidth && srcHeight && blurhash` (line 129). -/
def hasCompleteData (a : Attrs) : Bool :=
  truthy a.srcWidth && truthy a.srcHeight && truthy a.blurhash

/-- The rendered shadow DOM, abstracted to the layers and CSS classes the
handlers read or write. -/
structure Dom where
  hasImageLayer : Bool
  hasBlurhashLayer : Bool
  hasErrorLayer : Bool
  imageDataSrc : Option String
  imageLoadedClass : Bool
  imageNoAnimation : Bool
  blurhashFadeOut : Bool
  blurhashDebugLoading : Bool
  errorVisible : Bool
deriving DecidableEq

/-- `AxBlurest.render` (lines 120-268): fallback markup (image layer only)
when the placeholder data is incomplete, else the full layer stack; the image
layer exists iff `src` is truthy and holds `src` in `data-src`; every CSS
class starts cleared. -/
def renderDom (a : Attrs) : Dom :=
  { hasImageLayer := truthy a.src,
    hasBlurhashLayer := hasCompleteData a,
    hasErrorLayer := hasCompleteData a,
    imageDataSrc := if truthy a.src then a.src else none,
    imageLoadedClass := false,
    imageNoAnimation := false,
    blurhashFadeOut := false,
    blurhashDebugLoading := false,
    errorVisible := false }

/-- Observable side effects of the element's handlers. -/
inductive Effect where
  | fetchStart (src : String)
  | dispatch (name : String) (src : String) (bubbles composed : Bool)
  | timerSet (id : ℕ)
  | timerCancel (id : ℕ)
  | observerCreate
  | observerDisconnect
deriving DecidableEq

/-- Whether an effect starts an image fetch. -/
def Effect.isFetch : Effect → Bool
  | .fetchStart _ => true
  | _ => false

/-- Whether an effect dispatches a DOM event. -/
def Effect.isDispatch : Effect → Bool
  | .dispatch _ _ _ _ => true
  | _ => false

/-- Whether an effect cancels a timer. -/
def Effect.isTimerCancel : Effect → Bool
  | .timerCancel _ => true
  | _ => false

/-- The per-instance state (`AxBlurest` fields, lines 5-12), plus the
abstracted DOM and a count of observers created so far. -/
structure ElemState where
  dom : Dom
  hasObserver : Bool
  observerGen : ℕ
  isInViewport : Bool
  loadingTimer : Option ℕ
  loadStartTime : Option ℕ
  isImageLoaded : Bool
  isImageError : Bool
deriving DecidableEq

/-- `AxBlurest.cleanupObserver` (lines 106-111). -/
def cleanupObserver (s : ElemState) : ElemState × List Effect :=
  if s.hasObserver then ({ s with hasObserver := false }, [.observerDisconnect])
  else (s, [])

/-- `AxBlurest.cleanupTimer` (lines 113-118). -/
def cleanupTimer (s : ElemState) : ElemState × List Effect :=
  match s.loadingTimer with
  | some id => ({ s with loadingTimer := none }, [.timerCancel id])
  | none => (s, [])

/-- `AxBlurest.setupIntersectionObserver` (lines 24-46): disconnect any old
observer, then create and attach a fresh one. -/
def setupIntersectionObserver (s : ElemState) : ElemState × List Effect :=
  let p := cleanupObserver s
  ({ p.1 with hasObserver := true, observerGen := p.1.observerGen + 1 },
    p.2 ++ [.observerCreate])

/-- `AxBlurest.loadImage` (lines 305-374) up to starting the fetch: a no-op
without an image layer, a truthy `data-src`, and clear loaded/error flags;
otherwise it records the fetch start time and sets the probe image's `src`. -/
def loadImage (a : Attrs) (now : ℕ) (s : ElemState) : ElemState × List Effect :=
  if s.dom.hasImageLayer = false then (s, [])
  else
    match s.dom.imageDataSrc with
    | none => (s, [])
    | some src =>
      if src = "" ∨ s.isImageLoaded = true ∨ s.isImageError = true then (s, [])
      else ({ s with loadStartTime := some now }, [.fetchStart src])

/-- The `img.onload` handler (lines 316-345): compute the elapsed time since
the recorded start (999 when the record is missing or JS-falsy), add the
`no-animation` class when under 200 ms and a placeholder layer exists, mark
the image layer loaded, fade the placeholder out, set the loaded flag and
dispatch the bubbling, composed `image-loaded` event. -/
def handleLoad (src : String) (now : ℕ) (s : ElemState) : ElemState × List Effect :=
  let loadDuration : ℕ :=
    match s.loadStartTime with
    | some t => if t = 0 then 999 else now - t
    | none => 999
  let s1 := if loadDuration < 200 ∧ s.dom.hasBlurhashLayer = true then
      { s with dom := { s.dom with imageNoAnimation := true } } else s
  let s2 := { s1 with dom := { s1.dom with imageLoadedClass := true } }
  let s3 := if s2.dom.hasBlurhashLayer = true then
      { s2 with dom := { s2.dom with blurhashFadeOut := true } } else s2
  let s4 := { s3 with isImageLoaded := true }
  (s4, [.dispatch "image-loaded" src true true])

/-- The `img.onerror` handler (lines 347-371). -/
def handleError (src : String) (s : ElemState) : ElemState × List Effect :=
  let s1 := { s with isImageError := true }
  let s2 := if s1.dom.hasErrorLayer = true then
      { s1 with dom := { s1.dom with errorVisible := true } } else s1
  let s3 := if s2.dom.hasBlurhashLayer = true then
      { s2 with dom := { s2.dom with blurhashFadeOut := true } } else s2
  (s3, [.dispatch "image-error" src true true])

/-- `AxBlurest.handleViewportEntry` (lines 48-69): nothing once loaded or
errored; in debug mode show the pending indicator and arm the delayed load
timer (`tid` is the fresh timer handle); otherwise load immediately. The
numeric debug delay only schedules the timer and is not modelled. -/
def handleViewportEntry (a : Attrs) (now tid : ℕ) (s : ElemState) :
    ElemState × List Effect :=
  if s.isImageLoaded = true ∨ s.isImageError = true then (s, [])
  else if a.debug then
    let s1 := if s.dom.hasBlurhashLayer = true then
        { s with dom := { s.dom with blurhashDebugLoading := true } } else s
    ({ s1 with loadingTimer := some tid }, [.timerSet tid])
  else loadImage a now s

/-- `AxBlurest.handleViewportExit` (lines 71-81): cancel the pending timer
and clear the indicator, only when a timer is set and the image has not
loaded. -/
def handleViewportExit (s : ElemState) : ElemState × List Effect :=
  match s.loadingTimer with
  | some id =>
    if s.isImageLoaded = false then
      ({ s with loadingTimer := none,
                dom := { s.dom with blurhashDebugLoading := false } },
        [.timerCancel id])
    else (s, [])
  | none => (s, [])

/-- The observer callback (lines 27-43): entry and exit are edge-triggered on
the `isInViewport` flag, which is flipped before the handler runs. -/
def observerEvent (a : Attrs) (intersecting : Bool) (now tid : ℕ) (s : ElemState) :
    ElemState × List Effect :=
  if intersecting ∧ s.isInViewport = false then
    handleViewportEntry a now tid { s with isInViewport := true }
  else if ¬intersecting ∧ s.isInViewport = true then
    handleViewportExit { s with isInViewport := false }
  else (s, [])

/-- The debug timer's callback (lines 61-65) under JS timer semantics: a
cleared timeout never runs, so the body (load the image, clear the
indicator; the handle itself is not nulled) runs only while `loadingTimer`
still holds this handle. -/
def timerFireEvent (a : Attrs) (now id : ℕ) (s : ElemState) : ElemState × List Effect :=
  if s.loadingTimer = some id then
    let p := loadImage a now s
    ({ p.1 with dom := { p.1.dom with blurhashDebugLoading := false } }, p.2)
  else (s, [])

/-- `AxBlurest.attributeChangedCallback` (lines 380-394): on a real change,
clear the loaded/error flags and the start time, re-render, and — except for
`debug`/`debug-delay` — recreate the observer. The pending load timer is not
touched. `a` is the attribute set after the change. -/
def attributeChangedCallback (a : Attrs) (property : String)
    (oldValue newValue : Option String) (s : ElemState) : ElemState × List Effect :=
  if oldValue ≠ newValue then
    let s1 := { s with isImageLoaded := false, isImageError := false,
                       loadStartTime := none }
    if property = "debug" ∨ property = "debug-delay" then
      ({ s1 with dom := renderDom a }, [])
    else setupIntersectionObserver { s1 with dom := renderDom a }
  else (s, [])

/-- `AxBlurest.connectedCallback` (lines 14-17). -/
def connectedCallback (a : Attrs) (s : ElemState) : ElemState × List Effect :=
  setupIntersectionObserver { s with dom := renderDom a }

/-- `AxBlurest.disconnectedCallback` (lines 19-22). -/
def disconnectedCallback (s : ElemState) : ElemState × List Effect :=
  let p := cleanupObserver s
  let q := cleanupTimer p.1
  (q.1, p.2 ++ q.2)

/-- The flat fallback style returned for a hash that fails the validity
check (line 274). -/
def grayFallbackCss : String := "background-color: #f0f0f0;"

/-- The neutral animated gradient returned from the catch block
(lines 297-301). -/
def animatedGradientFallbackCss : String :=
  "\n                background: linear-gradient(135deg, #e0e0e0 0%, #f0f0f0 50%, #e0e0e0 100%);\n                background-size: 200% 200%;\n                animation: gradient-shift 3s ease infinite;\n            "

/-- The kebab-cased property list of a `BlurhashCss` record, in the object's
insertion order (lines 289-294). -/
def cssStructProps (c : BlurhashCss) : List (String × String) :=
  [("background-image", c.backgroundImage),
   ("background-position", c.backgroundPosition),
   ("background-repeat", c.backgroundRepeat),
   ("background-size", c.backgroundSize),
   ("filter", c.filter),
   ("transform", c.transform)]

/-- The `key: value;` lines joined as in lines 289-294. -/
def joinCssProps (c : BlurhashCss) : String :=
  String.intercalate "\n                    "
    ((cssStructProps c).map (fun kv => kv.1 ++ ": " ++ kv.2 ++ ";"))

/-- The fixed options `generateBlurhashCSS` passes to the converter
(lines 277-287): a 32-wide raster whose height follows the aspect ratio. -/
def elementCssOptions (aspectRatio : ℚ) : BlurhashOptions :=
  { width := 32, height := round ((32 : ℚ) / aspectRatio),
    blurRadius := 16, scaleFactor := 1.1, punch := 1.2 }

/-- `AxBlurest.generateBlurhashCSS` (lines 270-303): an invalid hash yields
the flat gray style; a throwing conversion is caught and yields the animated
gradient; otherwise the converted properties are joined. -/
noncomputable def generateBlurhashCSS (blurhash : String) (aspectRatio : ℚ) : String :=
  if isValidBlurhash blurhash = false then grayFallbackCss
  else
    match blurhashToCssObject blurhash (elementCssOptions aspectRatio) with
    | .ok css => joinCssProps css
    | .error _ => animatedGradientFallbackCss

/-! Helper lemmas. -/

theorem decode83Go_isOk (l : List Char) :
    ∀ acc : ℕ, (∀ c ∈ l, (base83Digit c).isSome) → ∃ v, decode83Go acc l = .ok v := by
  induction l with
  | nil => exact fun acc _ => ⟨acc, rfl⟩
  | cons c rest ih =>
    intro acc hall
    obtain ⟨d, hd⟩ := Option.isSome_iff_exists.mp (hall c (List.mem_cons_self c rest))
    simp only [decode83Go, hd]
    exact ih _ (fun x hx => hall x (List.mem_cons_of_mem c hx))

theorem decode83_isOk {l : List Char} (h : ∀ c ∈ l, (base83Digit c).isSome) :
    ∃ v, decode83 l = .ok v :=
  decode83Go_isOk l 0 h

theorem exceptMapList_isOk {α β : Type} {f : α → Except String β} :
    ∀ {l : List α}, (∀ x ∈ l, ∃ y, f x = .ok y) →
      ∃ ys, exceptMapList f l = .ok ys ∧ ys.length = l.length := by
  intro l
  induction l with
  | nil => exact fun _ => ⟨[], rfl, rfl⟩
  | cons x xs ih =>
    intro hall
    obtain ⟨y, hy⟩ := hall x (List.mem_cons_self x xs)
    obtain ⟨ys, hys, hlen⟩ := ih (fun z hz => hall z (List.mem_cons_of_mem x hz))
    exact ⟨y :: ys, by simp only [exceptMapList, hy, hys], by simp [hlen]⟩

theorem exceptMapList_getElem? {α β : Type} {f : α → Except String β} :
    ∀ {l : List α} {ys : List β}, exceptMapList f l = .ok ys →
      ∀ i : ℕ, ys[i]? = l[i]?.bind (fun x => (f x).toOption) := by
  intro l
  induction l with
  | nil =>
    intro ys h i
    simp only [exceptMapList, Except.ok.injEq] at h
    subst h
    simp
  | cons x xs ih =>
    intro ys h i
    simp only [exceptMapList] at h
    cases hfx : f x with
    | error e => rw [hfx] at h; exact absurd h (by simp)
    | ok y =>
      rw [hfx] at h
      cases hrest : exceptMapList f xs with
      | error e => rw [hrest] at h; exact absurd h (by simp)
      | ok zs =>
        rw [hrest] at h
        simp only [Except.ok.injEq] at h
        subst h
        cases i with
        | zero => simp [hfx, Except.toOption]
        | succ j => simpa using ih hrest j

theorem appendMapRange_length {α : Type} (f : ℕ → List α) (L : ℕ) :
    ∀ n, (∀ k, k < n → (f k).length = L) → (appendMapRange f n).length = n * L := by
  intro n
  induction n with
  | zero => intro _; simp [appendMapRange]
  | succ m ih =>
    intro h
    simp only [appendMapRange, List.length_append]
    rw [ih (fun k hk => h k (Nat.lt_succ_of_lt hk)), h m (Nat.lt_succ_self m)]
    ring

theorem appendMapRange_getElem? {α : Type} (f : ℕ → List α) (L : ℕ) :
    ∀ n, (∀ k, k < n → (f k).length = L) →
      ∀ k j, k < n → j < L →
        (appendMapRange f n)[k * L + j]? = (f k)[j]? := by
  intro n
  induction n with
  | zero => exact fun _ k j hk _ => absurd hk (Nat.not_lt_zero k)
  | succ m ih =>
    intro h k j hk hj
    have hlenm : (appendMapRange f m).length = m * L :=
      appendMapRange_length f L m (fun i hi => h i (Nat.lt_succ_of_lt hi))
    by_cases hkm : k < m
    · have hidx : k * L + j < (appendMapRange f m).length := by
        rw [hlenm]
        calc k * L + j < k * L + L := by omega
          _ = (k + 1) * L := by ring
          _ ≤ m * L := Nat.mul_le_mul_right L hkm
      rw [show appendMapRange f (m + 1) = appendMapRange f m ++ f m from rfl,
        List.getElem?_append_left hidx]
      exact ih (fun i hi => h i (Nat.lt_succ_of_lt hi)) k j hkm hj
    · have hkeq : k = m := by omega
      subst hkeq
      have hge : (appendMapRange f k).length ≤ k * L + j := by rw [hlenm]; omega
      rw [show appendMapRange f (k + 1) = appendMapRange f k ++ f k from rfl,
        List.getElem?_append_right hge, hlenm]
      congr 1
      omega

theorem decode_ok_of_wellFormed (h : String) (w ht : ℕ) (p : ℝ)
    (hv : wellFormedHash h) :
    ∃ r, decode h w ht p = .ok r ∧ r.length = w * ht * 4 ∧
      ∀ x y, x < w → y < ht → r[4 * x + 3 + y * w * 4]? = some 255 := by
  obtain ⟨hall, hok⟩ := hv
  obtain ⟨sf, hsf⟩ := decode83_isOk
    (l := h.data.take 1) (fun c hc => hall c (List.mem_of_mem_take hc))
  obtain ⟨qm, hqm⟩ := decode83_isOk
    (l := (h.data.drop 1).take 1)
    (fun c hc => hall c (List.mem_of_mem_drop (List.mem_of_mem_take hc)))
  have hcolors : ∀ i ∈ List.range (numXOf sf * numYOf sf),
      ∃ c, colorAt h.data (maximumValueOf qm * (if p = 0 then 1 else p)) i = .ok c := by
    intro i _
    unfold colorAt
    by_cases hi : i = 0
    · obtain ⟨v, hv4⟩ := decode83_isOk
        (l := (h.data.drop 2).take 4)
        (fun c hc => hall c (List.mem_of_mem_drop (List.mem_of_mem_take hc)))
      exact ⟨decodeDC v, by simp [hi, hv4]⟩
    · obtain ⟨v, hv2⟩ := decode83_isOk
        (l := (h.data.drop (4 + i * 2)).take 2)
        (fun c hc => hall c (List.mem_of_mem_drop (List.mem_of_mem_take hc)))
      exact ⟨decodeAC v (maximumValueOf qm * (if p = 0 then 1 else p)),
        by simp [hi, hv2]⟩
  obtain ⟨colors, hcs, _⟩ := exceptMapList_isOk hcolors
  have hrow : ∀ y, y < ht →
      (appendMapRange
        (fun x => pixelBytes colors (numXOf sf) (numYOf sf) w ht x y) w).length = w * 4 :=
    fun y _ => appendMapRange_length
      (fun x => pixelBytes colors (numXOf sf) (numYOf sf) w ht x y) 4 w (fun k _ => rfl)
  refine ⟨rasterBytes colors (numXOf sf) (numYOf sf) w ht, ?_, ?_, ?_⟩
  · simp only [decode, hok, hsf, hqm, hcs]
  · unfold rasterBytes
    rw [appendMapRange_length _ (w * 4) ht hrow]
    ring
  · intro x y hx hy
    unfold rasterBytes
    have h1 : 4 * x + 3 + y * w * 4 = y * (w * 4) + (4 * x + 3) := by ring
    rw [h1, appendMapRange_getElem? _ (w * 4) ht hrow y (4 * x + 3) hy (by omega)]
    have h2 : 4 * x + 3 = x * 4 + 3 := by ring
    rw [h2, appendMapRange_getElem?
      (fun x => pixelBytes colors (numXOf sf) (numYOf sf) w ht x y) 4 w
      (fun k _ => rfl) x 3 hx (by omega)]
    rfl

/-! Claim theorems. -/

/-- C1: `validateBlurhash` succeeds only when the length is at least 6 and
equals `4 + 2 * numX * numY` derived from the first symbol; any string of
admissible prefix violating the length equation is rejected with the message
naming both the actual and the expected length, and `decode` then propagates
that error and returns no raster at all. -/
theorem validateBlurhash_length_contract (h : String) :
    (validateBlurhash h = .ok () →
      6 ≤ h.length ∧ ∃ d, decode83 (h.data.take 1) = .ok d ∧
        h.length = 4 + 2 * numXOf d * numYOf d) ∧
    (∀ d, 6 ≤ h.length → decode83 (h.data.take 1) = .ok d →
      h.length ≠ 4 + 2 * numXOf d * numYOf d →
      validateBlurhash h = .error
        (lengthMismatchMessage h.length (4 + 2 * numXOf d * numYOf d))) ∧
    (∀ e, validateBlurhash h = .error e →
      ∀ w ht p, decode h w ht p = .error e) := by
  refine ⟨?_, ?_, ?_⟩
  · intro hok
    unfold validateBlurhash at hok
    split at hok
    · exact absurd hok (by simp)
    · rename_i hlen
      split at hok
      · exact absurd hok (by simp)
      · rename_i sizeFlag hd
        split at hok
        · rename_i heq
          exact ⟨by omega, sizeFlag, hd, heq⟩
        · exact absurd hok (by simp)
  · intro d hlen hd hne
    unfold validateBlurhash
    rw [if_neg (by omega), hd]
    simp [hne]
  · intro e herr w ht p
    simp only [decode, herr]

/-- C10: the structural validity check only reads the first character, so
the 28-character string `L!00000000000000000000000000` passes
`isBlurhashValid` although its second character is outside the alphabet, and
every full decode of it throws the invalid-character error. -/
theorem isBlurhashValid_not_sufficient :
    (isBlurhashValid "L!00000000000000000000000000").result = true ∧
    ∀ (w ht : ℕ) (p : ℝ),
      decode "L!00000000000000000000000000" w ht p =
        .error "Invalid base83 character: !" := by
  constructor
  · decide
  · intro w ht p
    simp only [decode,
      show validateBlurhash "L!00000000000000000000000000" = Except.ok () from by decide,
      show decode83 ("L!00000000000000000000000000".data.take 1) = Except.ok 21 from by
        decide,
      show decode83 (("L!00000000000000000000000000".data.drop 1).take 1) =
          Except.error "Invalid base83 character: !" from by decide]

/-- C2: decoding any well-formed placeholder string at positive dimensions
yields a raster of exactly `width * height * 4` bytes whose alpha byte at
`4 * x + 3 + y * width * 4` is 255 for every pixel. -/
theorem decode_raster_shape (h : String) (w ht : ℕ) (p : ℝ)
    (hv : wellFormedHash h) (hw : 0 < w) (hh : 0 < ht) :
    ∃ r, decode h w ht p = .ok r ∧ r.length = w * ht * 4 ∧
      ∀ x y, x < w → y < ht → r[4 * x + 3 + y * w * 4]? = some 255 :=
  decode_ok_of_wellFormed h w ht p hv

/-- C2 witness: the spec's scenario hash at `width = 2, height = 2` decodes
without throwing into a 16-byte buffer whose 4th, 8th, 12th and 16th bytes
are 255. -/
theorem decode_raster_shape_scenario :
    ∃ r, decode "LGF5?]00~q%M-;%M%M9Fxu-;tRof" 2 2 1 = .ok r ∧ r.length = 16 ∧
      r[3]? = some 255 ∧ r[7]? = some 255 ∧
      r[11]? = some 255 ∧ r[15]? = some 255 := by
  obtain ⟨r, hdec, hlen, halpha⟩ :=
    decode_raster_shape "LGF5?]00~q%M-;%M%M9Fxu-;tRof" 2 2 1 (by decide)
      (by decide) (by decide)
  refine ⟨r, hdec, by omega, ?_, ?_, ?_, ?_⟩
  · simpa using halpha 0 0 (by decide) (by decide)
  · simpa using halpha 1 0 (by decide) (by decide)
  · simpa using halpha 0 1 (by decide) (by decide)
  · simpa using halpha 1 1 (by decide) (by decide)

/-- C9: a falsy punch of 0 is replaced by 1 before use, so decoding with
`punch = 0` produces the byte-identical raster of `punch = 1`. -/
theorem decode_punch_zero_eq_one (h : String) (w ht : ℕ)
    (hv : wellFormedHash h) (hw : 0 < w) (hh : 0 < ht) :
    decode h w ht 0 = decode h w ht 1 := by
  have h0 : ((0 : ℝ) = 0) = True := by simp
  have h1 : ((1 : ℝ) = 0) = False := by norm_num
  simp only [decode, h0, h1, if_true, if_false]

/-- C9 witness: the scenario hash decodes identically at punch 0 and 1. -/
theorem decode_punch_zero_eq_one_scenario :
    decode "LGF5?]00~q%M-;%M%M9Fxu-;tRof" 2 2 0 =
      decode "LGF5?]00~q%M-;%M%M9Fxu-;tRof" 2 2 1 :=
  decode_punch_zero_eq_one "LGF5?]00~q%M-;%M%M9Fxu-;tRof" 2 2 (by decide)
    (by decide) (by decide)

/-- C6: the AC magnitudes scale monotonically with punch: with the maximum
value decoded from the hash's second symbol, every channel of
`decodeAC value (maximumValue * punch)` has magnitude at least that of
`decodeAC value (maximumValue * 1)` whenever `punch > 1`. -/
theorem decodeAC_punch_monotone (h : String) (qm : ℕ) (p : ℝ) (value : ℕ)
    (hv : wellFormedHash h)
    (hqm : decode83 ((h.data.drop 1).take 1) = .ok qm)
    (hp : 1 < p) :
    |(decodeAC value (maximumValueOf qm * 1)).1| ≤
      |(decodeAC value (maximumValueOf qm * p)).1| ∧
    |(decodeAC value (maximumValueOf qm * 1)).2.1| ≤
      |(decodeAC value (maximumValueOf qm * p)).2.1| ∧
    |(decodeAC value (maximumValueOf qm * 1)).2.2| ≤
      |(decodeAC value (maximumValueOf qm * p)).2.2| := by
  have hM : 0 ≤ maximumValueOf qm := by
    unfold maximumValueOf
    positivity
  have key : ∀ a : ℝ,
      |a * (maximumValueOf qm * 1)| ≤ |a * (maximumValueOf qm * p)| := by
    intro a
    rw [abs_mul a (maximumValueOf qm * 1), abs_mul a (maximumValueOf qm * p)]
    refine mul_le_mul_of_nonneg_left ?_ (abs_nonneg a)
    have hp0 : (0 : ℝ) ≤ p := by linarith
    rw [abs_of_nonneg (mul_nonneg hM zero_le_one), abs_of_nonneg (mul_nonneg hM hp0)]
    exact mul_le_mul_of_nonneg_left hp.le hM
  exact ⟨key _, key _, key _⟩

/-- C6 witness: for the scenario hash (second symbol `G`, quantised maximum
16) and punch 2, every channel magnitude of a sample AC value dominates the
punch-1 magnitude. -/
theorem decodeAC_punch_monotone_scenario :
    |(decodeAC 5 (maximumValueOf 16 * 1)).1| ≤
      |(decodeAC 5 (maximumValueOf 16 * 2)).1| ∧
    |(decodeAC 5 (maximumValueOf 16 * 1)).2.1| ≤
      |(decodeAC 5 (maximumValueOf 16 * 2)).2.1| ∧
    |(decodeAC 5 (maximumValueOf 16 * 1)).2.2| ≤
      |(decodeAC 5 (maximumValueOf 16 * 2)).2.2| :=
  decodeAC_punch_monotone "LGF5?]00~q%M-;%M%M9Fxu-;tRof" 16 2 5 (by decide)
    (by decide) one_lt_two

/-! Lemmas for the CSS converter. -/

theorem pixelIndexSafe {x y w ht c : ℕ} (hx : x < w) (hy : y < ht) (hc : c < 3) :
    4 * x + c + y * (w * 4) < w * ht * 4 := by
  calc 4 * x + c + y * (w * 4) < w * 4 + y * (w * 4) := by omega
    _ = (y + 1) * (w * 4) := by ring
    _ ≤ ht * (w * 4) := Nat.mul_le_mul_right _ hy
    _ = w * ht * 4 := by ring

theorem getPixel_ok {pixelBytes : List ℕ} {x y w ht c : ℕ}
    (hlen : pixelBytes.length = w * ht * 4) (hx : x < w) (hy : y < ht) (hc : c < 3) :
    ∃ v, getPixel pixelBytes x y w c = .ok v := by
  refine ⟨pixelBytes.getD (4 * x + c + y * (w * 4)) 0, ?_⟩
  simp only [getPixel]
  rw [if_neg (by rw [hlen]; exact Nat.not_le.mpr (pixelIndexSafe hx hy hc))]

theorem colorStop_ok {pixelBytes : List ℕ} {w ht y x : ℕ}
    (hlen : pixelBytes.length = w * ht * 4) (hx : x < w) (hy : y < ht) :
    ∃ r g b : ℕ, colorStop pixelBytes w y x = .ok
      ("rgb(" ++ toString r ++ "," ++ toString g ++ "," ++ toString b ++ ")"
        ++ (if x = 0 then "" else " " ++ toString (getRoundedPercentageOf x w) ++ "%")
        ++ (if x = w - 1 then "" else
          " " ++ toString (getRoundedPercentageOf (x + 1) w) ++ "%")) := by
  obtain ⟨r, hr⟩ := getPixel_ok hlen hx hy (show (0 : ℕ) < 3 by omega)
  obtain ⟨g, hg⟩ := getPixel_ok hlen hx hy (show (1 : ℕ) < 3 by omega)
  obtain ⟨b, hb⟩ := getPixel_ok hlen hx hy (show (2 : ℕ) < 3 by omega)
  exact ⟨r, g, b, by simp only [colorStop, getRgbColor, hr, hg, hb]⟩

theorem rowGradient_ok {pixelBytes : List ℕ} {w ht y : ℕ}
    (hlen : pixelBytes.length = w * ht * 4) (hy : y < ht) :
    ∃ stops, exceptMapList (colorStop pixelBytes w y) (List.range w) = .ok stops ∧
      stops.length = w ∧
      rowGradient pixelBytes w y =
        .ok ("linear-gradient(90deg," ++ String.intercalate "," stops ++ ")") ∧
      ∀ x : ℕ, x < w → ∃ r g b : ℕ, stops[x]? = some
        ("rgb(" ++ toString r ++ "," ++ toString g ++ "," ++ toString b ++ ")"
          ++ (if x = 0 then "" else " " ++ toString (getRoundedPercentageOf x w) ++ "%")
          ++ (if x = w - 1 then "" else
            " " ++ toString (getRoundedPercentageOf (x + 1) w) ++ "%")) := by
  have hall : ∀ x ∈ List.range w, ∃ s, colorStop pixelBytes w y x = .ok s := by
    intro x hx
    obtain ⟨r, g, b, hs⟩ := colorStop_ok hlen (List.mem_range.mp hx) hy
    exact ⟨_, hs⟩
  obtain ⟨stops, hstops, hslen⟩ := exceptMapList_isOk hall
  refine ⟨stops, hstops, by simpa using hslen, ?_, ?_⟩
  · simp only [rowGradient, hstops]
  · intro x hx
    obtain ⟨r, g, b, hs⟩ := colorStop_ok hlen hx hy
    refine ⟨r, g, b, ?_⟩
    rw [exceptMapList_getElem? hstops x, List.getElem?_range hx]
    simp [hs, Except.toOption]

/-- C5: for a well-formed hash and positive dimensions, the converter
succeeds; the background image joins exactly `height` row gradients with
commas, each row gradient joining exactly `width` `rgb(r,g,b)` colour stops;
and there is one position entry per row, `0 0` for row 0 and
`0 {round(100 * y / (height - 1))}%` for `y > 0`. -/
theorem blurhashToCssStruct_shape (hash : String) (w H : ℕ) (br sf : ℚ) (p : ℝ)
    (hv : wellFormedHash hash) (hw : 1 ≤ w) (hH : 1 ≤ H) :
    ∃ css gradients pixelBytes,
      blurhashToBytes hash w H p = .ok pixelBytes ∧
      exceptMapList (rowGradient pixelBytes w) (List.range H) = .ok gradients ∧
      blurhashToCssStruct hash ⟨(w : ℤ), (H : ℤ), br, sf, p⟩ = .ok css ∧
      gradients.length = H ∧
      css.backgroundImage = String.intercalate "," gradients ∧
      (∀ y : ℕ, y < H → ∃ stops, stops.length = w ∧
        gradients[y]? = some
          ("linear-gradient(90deg," ++ String.intercalate "," stops ++ ")") ∧
        ∀ x : ℕ, x < w → ∃ r g b : ℕ, stops[x]? = some
          ("rgb(" ++ toString r ++ "," ++ toString g ++ "," ++ toString b ++ ")"
            ++ (if x = 0 then "" else
              " " ++ toString (getRoundedPercentageOf x w) ++ "%")
            ++ (if x = w - 1 then "" else
              " " ++ toString (getRoundedPercentageOf (x + 1) w) ++ "%"))) ∧
      css.backgroundPosition =
        String.intercalate "," ((List.range H).map (rowPosition H)) ∧
      ((List.range H).map (rowPosition H)).length = H ∧
      rowPosition H 0 = "0 0" ∧
      (∀ y : ℕ, 0 < y →
        rowPosition H y =
          "0 " ++ toString (getRoundedPercentageOf y (H - 1)) ++ "%") := by
  obtain ⟨pix, hdec, hlen, _⟩ := decode_ok_of_wellFormed hash w H p hv
  have hbytes : blurhashToBytes hash w H p = .ok pix := by
    simp only [blurhashToBytes, hdec]
  have hall : ∀ y ∈ List.range H, ∃ g, rowGradient pix w y = .ok g := by
    intro y hy
    obtain ⟨stops, _, _, hg, _⟩ := rowGradient_ok hlen (List.mem_range.mp hy)
    exact ⟨_, hg⟩
  obtain ⟨gradients, hgr, hglen⟩ := exceptMapList_isOk hall
  have hne : hash ≠ "" := by
    intro h0
    rw [h0] at hv
    exact absurd hv.2 (by decide)
  have hpos : ¬((⟨(w : ℤ), (H : ℤ), br, sf, p⟩ : BlurhashOptions).width ≤ 0 ∨
      (⟨(w : ℤ), (H : ℤ), br, sf, p⟩ : BlurhashOptions).height ≤ 0) := by
    rintro (hle | hle) <;> simp at hle <;> omega
  have hstruct : blurhashToCssStruct hash ⟨(w : ℤ), (H : ℤ), br, sf, p⟩ =
      .ok { backgroundImage := String.intercalate "," gradients,
            backgroundPosition :=
              String.intercalate "," ((List.range H).map (rowPosition H)),
            backgroundRepeat := "no-repeat",
            backgroundSize := "100% " ++ toString ((100 : ℚ) / ((H : ℕ) : ℚ)) ++ "%",
            filter := "blur(" ++ toString br ++ "px)",
            transform := "scale(" ++ toString sf ++ ")" } := by
    simp only [blurhashToCssStruct, if_neg hne, if_neg hpos, Int.toNat_natCast,
      hbytes, hgr]
  refine ⟨{ backgroundImage := String.intercalate "," gradients,
            backgroundPosition :=
              String.intercalate "," ((List.range H).map (rowPosition H)),
            backgroundRepeat := "no-repeat",
            backgroundSize := "100% " ++ toString ((100 : ℚ) / ((H : ℕ) : ℚ)) ++ "%",
            filter := "blur(" ++ toString br ++ "px)",
            transform := "scale(" ++ toString sf ++ ")" },
    gradients, pix, hbytes, hgr, hstruct, by simpa using hglen, rfl, ?_, rfl,
    by simp, rfl, fun y hy => by simp [rowPosition, Nat.pos_iff_ne_zero.mp hy]⟩
  intro y hy
  obtain ⟨stops, hstops, hslen, hrowg, hstopAt⟩ := rowGradient_ok hlen hy
  refine ⟨stops, hslen, ?_, hstopAt⟩
  rw [exceptMapList_getElem? hgr y, List.getElem?_range hy]
  simp [hrowg, Except.toOption]

/-- C5 witness: the scenario hash at width 2, height 2 and default options
yields two row gradients of two stops each, and the two position entries
`0 0` and `0 100%`. -/
theorem blurhashToCssStruct_shape_scenario :
    ∃ css gradients pixelBytes,
      blurhashToBytes "LGF5?]00~q%M-;%M%M9Fxu-;tRof" 2 2 1 = .ok pixelBytes ∧
      exceptMapList (rowGradient pixelBytes 2) (List.range 2) = .ok gradients ∧
      blurhashToCssStruct "LGF5?]00~q%M-;%M%M9Fxu-;tRof"
        ⟨(2 : ℤ), (2 : ℤ), 24, 1.2, 1⟩ = .ok css ∧
      gradients.length = 2 ∧
      css.backgroundPosition =
        String.intercalate "," ((List.range 2).map (rowPosition 2)) ∧
      rowPosition 2 0 = "0 0" ∧
      rowPosition 2 1 = "0 " ++ toString (getRoundedPercentageOf 1 1) ++ "%" := by
  obtain ⟨css, gradients, pix, h1, h2, h3, h4, _, _, h7, _, h9, h10⟩ :=
    blurhashToCssStruct_shape "LGF5?]00~q%M-;%M%M9Fxu-;tRof" 2 2 24 1.2 1
      (by decide) (by decide) (by decide)
  exact ⟨css, gradients, pix, h1, h2, h3, h4, h7, h9, by simpa using h10 1 (by decide)⟩

/-! Element claims. -/

/-- A sample attribute set in debug mode with complete placeholder data. -/
def sampleAttrs : Attrs :=
  { src := some "photo.jpg", srcWidth := some "400", srcHeight := some "300",
    blurhash := some "LGF5?]00~q%M-;%M%M9Fxu-;tRof", debug := true,
    debugDelay := none }

/-- A freshly rendered, observed, unloaded instance of `sampleAttrs`. -/
def sampleReadyState : ElemState :=
  { dom := renderDom sampleAttrs, hasObserver := true, observerGen := 1,
    isInViewport := false, loadingTimer := none, loadStartTime := none,
    isImageLoaded := false, isImageError := false }

/-- C3 (amended): on a watched-attribute change to a different value the
element clears the loaded/error flags and the load-start timestamp,
re-renders, and — except for `debug`/`debug-delay` changes — discards and
recreates the observer; but the pending load timer is left untouched and no
cancel effect is emitted. -/
theorem attributeChanged_reset_behaviour (a : Attrs) (property : String)
    (ov nv : Option String) (s : ElemState) (hne : ov ≠ nv) :
    ((attributeChangedCallback a property ov nv s).1.isImageLoaded = false) ∧
    ((attributeChangedCallback a property ov nv s).1.isImageError = false) ∧
    ((attributeChangedCallback a property ov nv s).1.loadStartTime = none) ∧
    ((attributeChangedCallback a property ov nv s).1.dom = renderDom a) ∧
    ((attributeChangedCallback a property ov nv s).1.loadingTimer = s.loadingTimer) ∧
    (∀ e ∈ (attributeChangedCallback a property ov nv s).2,
      e.isTimerCancel = false) ∧
    (property ≠ "debug" → property ≠ "debug-delay" →
      (attributeChangedCallback a property ov nv s).1.hasObserver = true ∧
      Effect.observerCreate ∈ (attributeChangedCallback a property ov nv s).2 ∧
      (s.hasObserver = true →
        Effect.observerDisconnect ∈ (attributeChangedCallback a property ov nv s).2)) := by
  unfold attributeChangedCallback
  rw [if_pos hne]
  by_cases hprop : property = "debug" ∨ property = "debug-delay"
  · rw [if_pos hprop]
    refine ⟨rfl, rfl, rfl, rfl, rfl, by simp, ?_⟩
    intro h1 h2
    rcases hprop with h | h
    exacts [absurd h h1, absurd h h2]
  · rw [if_neg hprop]
    unfold setupIntersectionObserver cleanupObserver
    by_cases hobs : s.hasObserver
    · simp [hobs, Effect.isTimerCancel]
    · simp [hobs, Effect.isTimerCancel]

/-- C3 witness: concrete `src` change on a fresh instance: flags stay
cleared, the DOM is re-rendered and the observer is recreated. -/
theorem attributeChanged_reset_behaviour_scenario :
    ((attributeChangedCallback sampleAttrs "src" (some "a.jpg") (some "b.jpg")
        sampleReadyState).1.isImageLoaded = false) ∧
    ((attributeChangedCallback sampleAttrs "src" (some "a.jpg") (some "b.jpg")
        sampleReadyState).1.dom = renderDom sampleAttrs) ∧
    ((attributeChangedCallback sampleAttrs "src" (some "a.jpg") (some "b.jpg")
        sampleReadyState).1.hasObserver = true) := by
  have h := attributeChanged_reset_behaviour sampleAttrs "src" (some "a.jpg")
    (some "b.jpg") sampleReadyState (by decide)
  exact ⟨h.1, h.2.2.2.1, (h.2.2.2.2.2.2 (by decide) (by decide)).1⟩

/-- C3 counterexample: with a debug load timer pending (handle 7), changing
`src` leaves the timer armed and emits no cancel effect, and the stale timer
afterwards still fires and starts a fetch — refuting the claim that the
reset cancels any pending timer so that no timer armed under the previous
configuration can fire. -/
theorem attributeChanged_timer_survives :
    ((attributeChangedCallback sampleAttrs "src" (some "a.jpg") (some "b.jpg")
        { sampleReadyState with loadingTimer := some 7 }).1.loadingTimer = some 7) ∧
    (((attributeChangedCallback sampleAttrs "src" (some "a.jpg") (some "b.jpg")
        { sampleReadyState with loadingTimer := some 7 }).2.all
      (fun e => !e.isTimerCancel)) = true) ∧
    (((timerFireEvent sampleAttrs 1000 7
        (attributeChangedCallback sampleAttrs "src" (some "a.jpg") (some "b.jpg")
          { sampleReadyState with loadingTimer := some 7 }).1).2.any
      Effect.isFetch) = true) := by
  decide

/-- C4: when a triggered fetch succeeds, the element adds `no-animation`
exactly when the elapsed time since the fetch started is under 200 ms (and
otherwise leaves the timed cross-fade untouched); in both cases it is marked
loaded, the placeholder layer starts fading out, and one bubbling, composed
`image-loaded` event carrying the source is dispatched. -/
theorem load_outcome_contract (a : Attrs) (s0 : ElemState) (src : String)
    (t0 now : ℕ)
    (hlayer : s0.dom.hasImageLayer = true) (hsrc : s0.dom.imageDataSrc = some src)
    (hsrcne : src ≠ "") (hnl : s0.isImageLoaded = false)
    (hnerr : s0.isImageError = false) (hbl : s0.dom.hasBlurhashLayer = true)
    (hanim : s0.dom.imageNoAnimation = false) (ht0 : 0 < t0) (hnow : t0 ≤ now) :
    (loadImage a t0 s0).2 = [Effect.fetchStart src] ∧
    (loadImage a t0 s0).1.loadStartTime = some t0 ∧
    (handleLoad src now (loadImage a t0 s0).1).1.dom.imageNoAnimation =
      decide (now - t0 < 200) ∧
    (handleLoad src now (loadImage a t0 s0).1).1.isImageLoaded = true ∧
    (handleLoad src now (loadImage a t0 s0).1).1.dom.imageLoadedClass = true ∧
    (handleLoad src now (loadImage a t0 s0).1).1.dom.blurhashFadeOut = true ∧
    (handleLoad src now (loadImage a t0 s0).1).2 =
      [Effect.dispatch "image-loaded" src true true] := by
  have hload : loadImage a t0 s0 =
      ({ s0 with loadStartTime := some t0 }, [Effect.fetchStart src]) := by
    unfold loadImage
    rw [hlayer, hsrc]
    simp [hsrcne, hnl, hnerr]
  rw [hload]
  refine ⟨rfl, rfl, ?_, ?_, ?_, ?_, ?_⟩ <;>
    simp only [handleLoad] <;>
    by_cases hdur : now - t0 < 200 <;>
    simp [hdur, hbl, hanim, show ¬t0 = 0 from by omega]

/-- C4 witness: a fetch started at 1000 whose load callback runs at 1100
(elapsed 100 ms < 200 ms) gets the `no-animation` state, the loaded mark,
the placeholder fade-out and the `image-loaded` event. -/
theorem load_outcome_contract_scenario :
    (loadImage sampleAttrs 1000 sampleReadyState).2 =
      [Effect.fetchStart "photo.jpg"] ∧
    ((handleLoad "photo.jpg" 1100
        (loadImage sampleAttrs 1000 sampleReadyState).1).1.dom.imageNoAnimation
      = true) ∧
    ((handleLoad "photo.jpg" 1100
        (loadImage sampleAttrs 1000 sampleReadyState).1).1.isImageLoaded = true) ∧
    ((handleLoad "photo.jpg" 1100
        (loadImage sampleAttrs 1000 sampleReadyState).1).2 =
      [Effect.dispatch "image-loaded" "photo.jpg" true true]) := by
  have h := load_outcome_contract sampleAttrs sampleReadyState "photo.jpg" 1000 1100
    (by decide) (by decide) (by decide) (by decide) (by decide) (by decide)
    (by decide) (by decide) (by decide)
  refine ⟨h.1, ?_, h.2.2.2.1, h.2.2.2.2.2.2⟩
  rw [h.2.2.1]
  decide

/-- C7: entering the viewport and then leaving it before any fetch started
cancels the pending load timer; the two transitions start no fetch, record
no start time and dispatch no event, and the cancelled timer handle can no
longer fire. -/
theorem entry_exit_cancels_pending (a : Attrs) (s0 : ElemState)
    (now1 tid now2 now3 : ℕ)
    (hvp : s0.isInViewport = false) (htimer : s0.loadingTimer = none)
    (hnofetch : ∀ e ∈ (observerEvent a true now1 tid s0).2, e.isFetch = false) :
    ((observerEvent a false now2 tid
        (observerEvent a true now1 tid s0).1).1.loadingTimer = none) ∧
    ((observerEvent a false now2 tid
        (observerEvent a true now1 tid s0).1).1.loadStartTime = s0.loadStartTime) ∧
    (∀ e ∈ (observerEvent a true now1 tid s0).2 ++
        (observerEvent a false now2 tid (observerEvent a true now1 tid s0).1).2,
      e.isFetch = false ∧ e.isDispatch = false) ∧
    (timerFireEvent a now3 tid
        (observerEvent a false now2 tid (observerEvent a true now1 tid s0).1).1 =
      ((observerEvent a false now2 tid (observerEvent a true now1 tid s0).1).1,
        [])) := by
  have hentry : observerEvent a true now1 tid s0 =
      handleViewportEntry a now1 tid { s0 with isInViewport := true } := by
    simp [observerEvent, hvp]
  rw [hentry] at hnofetch ⊢
  by_cases hflag : s0.isImageLoaded = true ∨ s0.isImageError = true
  · -- Entry is a no-op once loaded or errored.
    have h1 : handleViewportEntry a now1 tid { s0 with isInViewport := true } =
        ({ s0 with isInViewport := true }, []) := by
      unfold handleViewportEntry
      rw [if_pos (by simpa using hflag)]
    rw [h1]
    have h2 : observerEvent a false now2 tid { s0 with isInViewport := true } =
        handleViewportExit { s0 with isInViewport := false } := by
      simp [observerEvent]
    rw [h2]
    have h3 : handleViewportExit { s0 with isInViewport := false } =
        ({ s0 with isInViewport := false }, []) := by
      unfold handleViewportExit
      simp [htimer]
    rw [h3]
    refine ⟨htimer, rfl, by simp, ?_⟩
    unfold timerFireEvent
    simp [htimer]
  · have hL : s0.isImageLoaded = false := by
      revert hflag; cases s0.isImageLoaded <;> simp
    have hE : s0.isImageError = false := by
      revert hflag; cases s0.isImageError <;> simp
    by_cases hdbg : a.debug
    · -- Debug mode: the entry arms the timer, the exit cancels it.
      refine ⟨?_, ?_, ?_, ?_⟩ <;>
        by_cases hbl : s0.dom.hasBlurhashLayer = true <;>
        simp [handleViewportEntry, handleViewportExit, observerEvent,
          timerFireEvent, loadImage, hL, hE, hdbg, hbl, htimer,
          Effect.isFetch, Effect.isDispatch]
    · -- Non-debug: the entry calls loadImage, which by hypothesis did not fetch.
      have h1 : handleViewportEntry a now1 tid { s0 with isInViewport := true } =
          loadImage a now1 { s0 with isInViewport := true } := by
        unfold handleViewportEntry
        rw [if_neg (by simp [hL, hE]), if_neg hdbg]
      rw [h1] at hnofetch ⊢
      have hnof : loadImage a now1 { s0 with isInViewport := true } =
          ({ s0 with isInViewport := true }, []) := by
        rcases hil : s0.dom.hasImageLayer with _ | _
        · simp [loadImage, hil]
        · rcases hds : s0.dom.imageDataSrc with _ | src
          · simp [loadImage, hil, hds]
          · by_cases hempty : src = ""
            · simp [loadImage, hil, hds, hempty]
            · exfalso
              have hmem : Effect.fetchStart src ∈
                  (loadImage a now1 { s0 with isInViewport := true }).2 := by
                simp [loadImage, hil, hds, hempty, hL, hE]
              have hfe := hnofetch _ hmem
              simp [Effect.isFetch] at hfe
      rw [hnof]
      have h2 : observerEvent a false now2 tid { s0 with isInViewport := true } =
          handleViewportExit { s0 with isInViewport := false } := by
        simp [observerEvent]
      rw [h2]
      have h3 : handleViewportExit { s0 with isInViewport := false } =
          ({ s0 with isInViewport := false }, []) := by
        unfold handleViewportExit
        simp [htimer]
      rw [h3]
      refine ⟨htimer, rfl, by simp, ?_⟩
      unfold timerFireEvent
      simp [htimer]

/-- C7 witness: a debug-mode instance entering at t=10 (timer handle 5) and
leaving at t=20 ends with no pending timer; no fetch or event effect appears
and the stale handle no longer fires at t=30. -/
theorem entry_exit_cancels_pending_scenario :
    ((observerEvent sampleAttrs false 20 5
        (observerEvent sampleAttrs true 10 5 sampleReadyState).1).1.loadingTimer
      = none) ∧
    ((observerEvent sampleAttrs false 20 5
        (observerEvent sampleAttrs true 10 5 sampleReadyState).1).1.loadStartTime
      = none) ∧
    (timerFireEvent sampleAttrs 30 5
        (observerEvent sampleAttrs false 20 5
          (observerEvent sampleAttrs true 10 5 sampleReadyState).1).1 =
      ((observerEvent sampleAttrs false 20 5
          (observerEvent sampleAttrs true 10 5 sampleReadyState).1).1, [])) := by
  have h := entry_exit_cancels_pending sampleAttrs sampleReadyState 10 5 20 30
    (by decide) (by decide) (by decide)
  exact ⟨h.1, h.2.1, h.2.2.2⟩

/-- C8 (amended): `generateBlurhashCSS` never lets a decode or generation
error escape — it always returns the flat gray style (when the validity
check fails), the animated gradient (when the conversion throws), or the
joined converted properties. -/
theorem generateBlurhashCSS_containment (h : String) (ar : ℚ) :
    (isValidBlurhash h = false → generateBlurhashCSS h ar = grayFallbackCss) ∧
    (∀ e, isValidBlurhash h = true →
      blurhashToCssObject h (elementCssOptions ar) = .error e →
      generateBlurhashCSS h ar = animatedGradientFallbackCss) ∧
    (generateBlurhashCSS h ar = grayFallbackCss ∨
     generateBlurhashCSS h ar = animatedGradientFallbackCss ∨
     ∃ css, blurhashToCssObject h (elementCssOptions ar) = .ok css ∧
       generateBlurhashCSS h ar = joinCssProps css) := by
  refine ⟨?_, ?_, ?_⟩
  · intro hinv
    simp [generateBlurhashCSS, hinv]
  · intro e hval herr
    simp [generateBlurhashCSS, hval, herr]
  · by_cases hval : isValidBlurhash h = false
    · left
      simp [generateBlurhashCSS, hval]
    · have hval' : isValidBlurhash h = true := by
        revert hval; cases isValidBlurhash h <;> simp
      cases hcss : blurhashToCssObject h (elementCssOptions ar) with
      | error e =>
        right; left
        simp [generateBlurhashCSS, hval', hcss]
      | ok css =>
        right; right
        exact ⟨css, rfl, by simp [generateBlurhashCSS, hval', hcss]⟩

/-- C8 counterexample: for the invalid hash `""` the element substitutes the
static flat gray `background-color` style, which is not the neutral animated
gradient the claim promises. -/
theorem generateBlurhashCSS_invalid_gives_flat_gray :
    generateBlurhashCSS "" 1 = grayFallbackCss ∧
    grayFallbackCss ≠ animatedGradientFallbackCss := by
  constructor
  · simp [generateBlurhashCSS, show isValidBlurhash "" = false from by decide]
  · decide

end Blurest
